import Mathlib

/-!
Verification of the envi_aqi air-quality pipeline (dookda/envi_aqi).

This file gives a shallow embedding, over exact rationals, of the core
pipeline of the repository:

* `src/backend/anomaly_detector.py` — `AnomalyDetector`
  (statistical Z-score / IQR detection, WHO-threshold domain detection,
  score fusion in `detect_all`);
* `src/backend/lstm_gap_filler.py` — `LSTMGapFiller`
  (feature construction, sequence windowing, gap filling);
* `src/backend/enhanced_lstm_model.py` — `EnhancedLSTMModel`
  (richer feature construction, windowing, model persistence, gap filling).

Modelling conventions, used throughout:

* A pandas float cell is modelled as `F := Option ℚ`; `none` plays the
  role of `NaN` (both "missing value" and "invalid arithmetic result",
  exactly as pandas conflates them).  Comparisons against `none` are
  `false`, as IEEE comparisons with NaN are.
* Division is exact rational division, except that a zero denominator
  yields `none` (NaN).  In IEEE arithmetic `0/0` is NaN while `x/0`
  (`x ≠ 0`) is `±inf`; the only zero-denominator division the source can
  reach is `|v - mean| / std` with `std = 0`, which in exact arithmetic
  forces `v = mean`, i.e. the `0/0` case, so collapsing both to `none`
  is faithful on reachable inputs.
* The square root inside the standard deviation, and the `sin`/`cos`
  cyclical encodings, are irrational; they are taken as explicit
  function parameters (`sqrtQ`, `sin2pi`, `cos2pi`) of the definitions
  that use them, so every definition stays computable and the theorems
  quantify over the numeric implementations.
* The TensorFlow network and the scikit-learn IsolationForest are
  opaque learned models; they are taken as function parameters
  (`forward`, `fitF`, `ml_detector`).  Everything the repository's own
  code computes around them is embedded concretely.
* Timestamps are hour counts (`ℕ`); `hour = t % 24` and
  `day_of_week = (t / 24) % 7`, faithful to an hour-aligned datetime
  index up to the choice of epoch.
-/

/-- A pandas cell: a rational, or `none` for NaN / missing. -/
abbrev F := Option ℚ

/-- `Series.dropna`: keep the present (non-NaN) values. -/
def dropna (xs : List F) : List ℚ := xs.filterMap id

/-- NaN-propagating subtraction. -/
def fsub : F → F → F
  | some a, some b => some (a - b)
  | _, _ => none

/-- NaN-propagating multiplication. -/
def fmul : F → F → F
  | some a, some b => some (a * b)
  | _, _ => none

/-- NaN-propagating addition. -/
def fadd : F → F → F
  | some a, some b => some (a + b)
  | _, _ => none

/-- NaN-propagating division; a zero denominator yields NaN
(see the file header for why this is faithful here). -/
def fdiv : F → F → F
  | some a, some b => if b = 0 then none else some (a / b)
  | _, _ => none

/-- `x < bound` with NaN semantics: any comparison with NaN is false. -/
def fltB (x : ℚ) (bound : F) : Bool :=
  match bound with
  | some b => decide (x < b)
  | none => false

/-- `x > bound` with NaN semantics: any comparison with NaN is false. -/
def fgtB (x : ℚ) (bound : F) : Bool :=
  match bound with
  | some b => decide (b < x)
  | none => false

namespace AnomalyDetector

/-! ### `AnomalyDetector` (src/backend/anomaly_detector.py) -/

/-- One pollutant's WHO band bounds, from `AnomalyDetector.__init__`.
Each field is the lower bound of the named band as used by the
classification cascade in `detect_domain_anomalies` (the `safe` entry is
stored in the source dict but never read by the cascade). -/
structure Thresholds where
  safe : ℚ
  moderate : ℚ
  unhealthy_sensitive : ℚ
  unhealthy : ℚ
  very_unhealthy : ℚ
  hazardous : ℚ
deriving DecidableEq

/-- `self.thresholds['PM25']`. -/
def pm25Thresholds : Thresholds :=
  { safe := 15, moderate := 35, unhealthy_sensitive := 55,
    unhealthy := 150, very_unhealthy := 250, hazardous := 500 }

/-- `self.thresholds['PM10']`. -/
def pm10Thresholds : Thresholds :=
  { safe := 50, moderate := 150, unhealthy_sensitive := 250,
    unhealthy := 350, very_unhealthy := 420, hazardous := 600 }

/-- `self.thresholds['O3']`. -/
def o3Thresholds : Thresholds :=
  { safe := 100, moderate := 160, unhealthy_sensitive := 200,
    unhealthy := 300, very_unhealthy := 400, hazardous := 600 }

/-- `self.thresholds.get(param_type, self.thresholds['PM25'])`. -/
def thresholdsFor (param_type : String) : Thresholds :=
  if param_type = "PM25" then pm25Thresholds
  else if param_type = "PM10" then pm10Thresholds
  else if param_type = "O3" then o3Thresholds
  else pm25Thresholds

/-- The health levels produced by `detect_domain_anomalies`. -/
inductive HealthLevel where
  | unknown
  | safe
  | moderate
  | unhealthy_sensitive
  | unhealthy
  | very_unhealthy
  | hazardous
deriving DecidableEq

/-- Severity rank of a health level, following the ascending band order
of the threshold tables (used only in specifications, not by the
source). -/
def severity : HealthLevel → ℕ
  | .unknown => 0
  | .safe => 0
  | .moderate => 1
  | .unhealthy_sensitive => 2
  | .unhealthy => 3
  | .very_unhealthy => 4
  | .hazardous => 5

/-- The per-value classification cascade of `detect_domain_anomalies`
(lines 179-200): `pd.isna` check first, then bands checked from
`hazardous` down; returns the health level and the `is_hazardous` flag
appended for that value. -/
def classifyValue (t : Thresholds) (val : F) : HealthLevel × Bool :=
  match val with
  | none => (.unknown, false)
  | some v =>
    if t.hazardous ≤ v then (.hazardous, true)
    else if t.very_unhealthy ≤ v then (.very_unhealthy, true)
    else if t.unhealthy ≤ v then (.unhealthy, true)
    else if t.unhealthy_sensitive ≤ v then (.unhealthy_sensitive, false)
    else if t.moderate ≤ v then (.moderate, false)
    else (.safe, false)

/-- Result dict of `detect_domain_anomalies`. -/
structure DomainResult where
  health_levels : List HealthLevel
  is_hazardous : List Bool
  thresholds : Thresholds
  hazardous_count : ℕ
  hazardous_percentage : ℚ
deriving DecidableEq

/-- `AnomalyDetector.detect_domain_anomalies` (lines 161-208): drop NaN
values, classify each remaining value by the threshold cascade, report
the level/flag lists and the hazardous count and percentage. -/
def detect_domain_anomalies (df : List F) (param_type : String) : DomainResult :=
  let values := dropna df
  let thresholds := thresholdsFor param_type
  let pairs := values.map (fun v => classifyValue thresholds (some v))
  let health_levels := pairs.map Prod.fst
  let is_hazardous := pairs.map Prod.snd
  let hazardous_count := (is_hazardous.filter (· = true)).length
  { health_levels := health_levels
    is_hazardous := is_hazardous
    thresholds := thresholds
    hazardous_count := hazardous_count
    hazardous_percentage :=
      if is_hazardous.length = 0 then 0
      else (hazardous_count : ℚ) / (is_hazardous.length : ℚ) * 100 }

/-- `values.mean()`: NaN on an empty series. -/
def seriesMean (values : List ℚ) : F :=
  if values.length = 0 then none
  else some (values.sum / (values.length : ℚ))

/-- `values.std()` (pandas, `ddof=1`): NaN for fewer than two samples,
otherwise `sqrt` of the sample variance.  `sqrtQ` is the caller's square
root implementation. -/
def seriesStd (sqrtQ : ℚ → ℚ) (values : List ℚ) : F :=
  match seriesMean values with
  | none => none
  | some m =>
    if values.length < 2 then none
    else some (sqrtQ ((values.map (fun v => (v - m) ^ 2)).sum / ((values.length : ℚ) - 1)))

/-- `values.quantile(p)` with pandas' default linear interpolation on
the sorted values: position `h = (n-1)·p`, `i = ⌊h⌋`, result
`x_i + (h - i)·(x_{i+1} - x_i)`; NaN on an empty series.  The floor is
taken as `num / den` on the (nonnegative) position. -/
def quantile (values : List ℚ) (p : ℚ) : F :=
  match values with
  | [] => none
  | _ =>
    let sorted := values.insertionSort (· ≤ ·)
    let h : ℚ := ((values.length : ℚ) - 1) * p
    let i : ℕ := (h.num / (h.den : ℤ)).toNat
    let lo := sorted.getD i 0
    let hi := sorted.getD (i + 1) lo
    some (lo + (h - (i : ℚ)) * (hi - lo))

/-- `np.abs((values - mean) / std)` for one value, with NaN semantics. -/
def zScoreOf (mean std : F) (v : ℚ) : F :=
  match mean, std with
  | some m, some s => if s = 0 then none else some (|v - m| / s)
  | _, _ => none

/-- `z > z_threshold` for one z-score; false on NaN, as in IEEE. -/
def zFlagOf (z_threshold : ℚ) (z : F) : Bool :=
  match z with
  | some z => decide (z_threshold < z)
  | none => false

/-- Summary statistics block of `detect_statistical_anomalies`. -/
structure StatStats where
  mean : F
  std : F
  q1 : F
  q3 : F
  iqr : F
deriving DecidableEq

/-- Result dict of `detect_statistical_anomalies`. -/
structure StatResult where
  z_scores : List F
  z_anomalies : List Bool
  iqr_anomalies : List Bool
  z_threshold : ℚ
  iqr_bounds : F × F
  stats : StatStats
deriving DecidableEq

/-- `AnomalyDetector.detect_statistical_anomalies` (lines 61-103): drop
NaN values; z-scores `|v - mean| / std` flagged above `z_threshold`;
IQR fences `Q1 - k·IQR`, `Q3 + k·IQR` flag values strictly outside.
Total — the source raises nothing here; a zero or undefined `std` makes
the z-scores NaN, so all z-flags come out false. -/
def detect_statistical_anomalies (sqrtQ : ℚ → ℚ) (df : List F)
    (z_threshold : ℚ := 3) (iqr_multiplier : ℚ := 3/2) : StatResult :=
  let values := dropna df
  let mean := seriesMean values
  let std := seriesStd sqrtQ values
  let z_scores := values.map (zScoreOf mean std)
  let z_anomalies := z_scores.map (zFlagOf z_threshold)
  let q1 := quantile values (1/4)
  let q3 := quantile values (3/4)
  let iqr := fsub q3 q1
  let lower_bound := fsub q1 (fmul (some iqr_multiplier) iqr)
  let upper_bound := fadd q3 (fmul (some iqr_multiplier) iqr)
  let iqr_anomalies := values.map (fun v => fltB v lower_bound || fgtB v upper_bound)
  { z_scores := z_scores
    z_anomalies := z_anomalies
    iqr_anomalies := iqr_anomalies
    z_threshold := z_threshold
    iqr_bounds := (lower_bound, upper_bound)
    stats := { mean := mean, std := std, q1 := q1, q3 := q3, iqr := iqr } }

/-- One entry of `results['detailed']` built at the end of
`detect_all`; the two ML fields are present only when the ML detector
ran (`'ml' in results`). -/
structure DetailedPoint where
  value : ℚ
  z_score : F
  is_z_anomaly : Bool
  is_iqr_anomaly : Bool
  health_level : HealthLevel
  is_hazardous : Bool
  combined_score : ℚ
  is_anomaly : Bool
  ml_score : F
  is_ml_anomaly : Option Bool
deriving DecidableEq

/-- The non-error result dict of `detect_all`. -/
structure DetectAllResult where
  statistical : StatResult
  domain : DomainResult
  total_points : ℕ
  ml : Option (List ℚ × List Bool)
  combined_anomaly_scores : List ℚ
  is_anomaly_combined : List Bool
  detailed : List DetailedPoint

/-- The fusion weight contributed by the ML flag of one detailed entry:
`0.2` per set flag when the ML detector ran, `0` (term omitted) when it
was skipped. -/
def mlTerm (flag : Option Bool) : ℚ :=
  match flag with
  | some b => if b then 1/5 else 0
  | none => 0

/-- `AnomalyDetector.detect_all`, body after the empty-data guard
(lines 244-308).  `df_clean` (the non-NaN values) is the row set every
detector runs on.  `ml_detector` stands for the
IsolationForest-based `detect_ml_anomalies`, returning per-point scores
and flags, or `none` when it raised (the `try`/`except` arm); it is
consulted only when scikit-learn is available and `len(df_clean) > 50`.
Fusion: `0.3·[z] + 0.3·[IQR] + 0.2·[hazardous] + 0.2·[ML]` with the ML
term present only when the detector ran; `is_anomaly = score > 0.5`. -/
def detect_all_core (sqrtQ : ℚ → ℚ) (sklearn_available : Bool)
    (ml_detector : List ℚ → Option (List ℚ × List Bool))
    (data : List F) (param_type : String) : DetectAllResult :=
  let df_clean := dropna data
  let n := df_clean.length
  let statistical := detect_statistical_anomalies sqrtQ (df_clean.map some)
  let domain := detect_domain_anomalies (df_clean.map some) param_type
  let ml : Option (List ℚ × List Bool) :=
    if sklearn_available && decide (50 < n) then ml_detector df_clean else none
  let scoreAt : ℕ → ℚ := fun i =>
    (if zFlagOf statistical.z_threshold (statistical.z_scores.getD i none) then (3:ℚ)/10 else 0)
    + (if statistical.iqr_anomalies.getD i false then (3:ℚ)/10 else 0)
    + (if domain.is_hazardous.getD i false then (1:ℚ)/5 else 0)
    + mlTerm (ml.map (fun m => m.2.getD i false))
  let combined := (List.range n).map scoreAt
  { statistical := statistical
    domain := domain
    total_points := n
    ml := ml
    combined_anomaly_scores := combined
    is_anomaly_combined := combined.map (fun s => decide ((1:ℚ)/2 < s))
    detailed := (List.range n).map (fun i =>
      { value := df_clean.getD i 0
        z_score := statistical.z_scores.getD i none
        is_z_anomaly := statistical.z_anomalies.getD i false
        is_iqr_anomaly := statistical.iqr_anomalies.getD i false
        health_level := domain.health_levels.getD i .unknown
        is_hazardous := domain.is_hazardous.getD i false
        combined_score := combined.getD i 0
        is_anomaly := decide ((1:ℚ)/2 < combined.getD i 0)
        ml_score := ml.map (fun m => m.1.getD i 0)
        is_ml_anomaly := ml.map (fun m => m.2.getD i false) }) }

/-- `AnomalyDetector.detect_all` (lines 210-308): returns the error
dict `'No valid data points found'` when no value survives `dropna`,
otherwise the full result. -/
def detect_all (sqrtQ : ℚ → ℚ) (sklearn_available : Bool)
    (ml_detector : List ℚ → Option (List ℚ × List Bool))
    (data : List F) (param_type : String) : Except String DetectAllResult :=
  if (dropna data).length = 0 then .error "No valid data points found"
  else .ok (detect_all_core sqrtQ sklearn_available ml_detector data param_type)

end AnomalyDetector

/-! ### Shared pandas/sklearn helpers for the two gap fillers -/

/-- `Series.ffill` auxiliary: replace NaN with the last valid value. -/
def ffillAux : F → List F → List F
  | _, [] => []
  | _, some v :: xs => some v :: ffillAux (some v) xs
  | last, none :: xs => last :: ffillAux last xs

/-- `Series.ffill()`. -/
def ffill (xs : List F) : List F := ffillAux none xs

/-- First valid value of a series, or NaN. -/
def nextSome (xs : List F) : F :=
  match dropna xs with
  | [] => none
  | v :: _ => some v

/-- `Series.bfill()` / `fillna(method='bfill')`: replace NaN with the
next valid value. -/
def bfill : List F → List F
  | [] => []
  | some v :: xs => some v :: bfill xs
  | none :: xs => nextSome xs :: bfill xs

/-- The temporary dense copy `value.ffill().bfill()` used for feature
continuity (`PM25_filled_temp`). -/
def tempFilled (vals : List F) : List F := bfill (ffill vals)

/-- `df.index.hour` for an hour-count timestamp. -/
def hourOf (t : ℕ) : ℕ := t % 24

/-- `df.index.dayofweek` for an hour-count timestamp (weekday of the
epoch chosen as 0). -/
def dayOfWeek (t : ℕ) : ℕ := (t / 24) % 7

/-- `df.index.dayofweek >= 5`. -/
def isWeekend (t : ℕ) : Bool := 5 ≤ dayOfWeek t

/-- `Series.shift(lag).fillna(method='bfill')`, used for the lag
features. -/
def shiftBfill (lag : ℕ) (xs : List F) : List F :=
  bfill (List.replicate lag none ++ xs.take (xs.length - lag))

/-- The trailing window `xs[i+1-w : i+1]`, NaN entries dropped, as
pandas `rolling(w, min_periods=1)` aggregates it. -/
def rollingWindowAt (w : ℕ) (xs : List F) (i : ℕ) : List ℚ :=
  dropna ((xs.take (i + 1)).drop (i + 1 - w))

/-- `Series.rolling(w, min_periods=1).mean()`. -/
def rollingMean (w : ℕ) (xs : List F) : List F :=
  (List.range xs.length).map (fun i =>
    let vs := rollingWindowAt w xs i
    if vs.length = 0 then none else some (vs.sum / (vs.length : ℚ)))

/-- `Series.rolling(w, min_periods=1).std()` (sample std, NaN below two
valid samples), before any `fillna`. -/
def rollingStd (sqrtQ : ℚ → ℚ) (w : ℕ) (xs : List F) : List F :=
  (List.range xs.length).map (fun i =>
    let vs := rollingWindowAt w xs i
    if vs.length < 2 then none
    else
      let m := vs.sum / (vs.length : ℚ)
      some (sqrtQ ((vs.map (fun v => (v - m) ^ 2)).sum / ((vs.length : ℚ) - 1))))

/-- `Series.rolling(w, min_periods=1).max()`. -/
def rollingMax (w : ℕ) (xs : List F) : List F :=
  (List.range xs.length).map (fun i =>
    match rollingWindowAt w xs i with
    | [] => none
    | v :: vs => some (vs.foldl max v))

/-- `Series.rolling(w, min_periods=1).min()`. -/
def rollingMin (w : ℕ) (xs : List F) : List F :=
  (List.range xs.length).map (fun i =>
    match rollingWindowAt w xs i with
    | [] => none
    | v :: vs => some (vs.foldl min v))

/-- `Series.fillna(0)`. -/
def fillna0 (xs : List F) : List F := xs.map (fun c => some (c.getD 0))

/-- The fitted state of `sklearn.preprocessing.MinMaxScaler`, exactly
the attributes the source persists in `save_model`. -/
structure ScalerParams where
  data_min_ : List F
  data_max_ : List F
  data_range_ : List F
  scale_ : List F
  min_ : List F
  n_features_in_ : ℕ
  n_samples_seen_ : ℕ
  feature_range : ℚ × ℚ
deriving DecidableEq

/-- Column `j` of a row-major feature table. -/
def colAt (rows : List (List F)) (j : ℕ) : List F :=
  rows.map (fun r => r.getD j none)

/-- `np.nanmin` over a column: minimum of the valid entries, NaN if
there are none. -/
def colMin (xs : List F) : F :=
  match dropna xs with
  | [] => none
  | v :: vs => some (vs.foldl min v)

/-- `np.nanmax` over a column. -/
def colMax (xs : List F) : F :=
  match dropna xs with
  | [] => none
  | v :: vs => some (vs.foldl max v)

/-- sklearn `_handle_zeros_in_scale`: a zero range scales by 1. -/
def handleZeros (r : F) : F := r.map (fun q => if q = 0 then 1 else q)

/-- The range `data_max_ - data_min_` of one column. -/
def rangeCol (col : List F) : F := fsub (colMax col) (colMin col)

/-- The `scale_` entry of one column:
`(b - a) / _handle_zeros_in_scale(data_range_)` for feature range
`(a, b)`. -/
def scaleCol (feature_range : ℚ × ℚ) (col : List F) : F :=
  fdiv (some (feature_range.2 - feature_range.1)) (handleZeros (rangeCol col))

/-- The `min_` entry of one column: `a - data_min_ · scale_`. -/
def minCol (feature_range : ℚ × ℚ) (col : List F) : F :=
  fsub (some feature_range.1) (fmul (colMin col) (scaleCol feature_range col))

/-- `MinMaxScaler.fit` on a row-major feature table:
`data_min_`/`data_max_`/`data_range_` per column, `scale_` and `min_`
by the formulas above.  sklearn additionally rejects NaN input; the
callers here only reach it with dense columns (see the claims'
hypotheses). -/
def fitScaler (feature_range : ℚ × ℚ) (rows : List (List F)) : ScalerParams :=
  let nf := (rows.headD []).length
  { data_min_ := (List.range nf).map (fun j => colMin (colAt rows j))
    data_max_ := (List.range nf).map (fun j => colMax (colAt rows j))
    data_range_ := (List.range nf).map (fun j => rangeCol (colAt rows j))
    scale_ := (List.range nf).map (fun j => scaleCol feature_range (colAt rows j))
    min_ := (List.range nf).map (fun j => minCol feature_range (colAt rows j))
    n_features_in_ := nf
    n_samples_seen_ := rows.length
    feature_range := feature_range }

/-- `MinMaxScaler.transform` of one row: `x·scale_ + min_` per
column. -/
def transformRow (σ : ScalerParams) (r : List F) : List F :=
  (List.range σ.n_features_in_).map (fun j =>
    fadd (fmul (r.getD j none) (σ.scale_.getD j none)) (σ.min_.getD j none))

/-- `MinMaxScaler.fit_transform`. -/
def fitTransform (feature_range : ℚ × ℚ) (rows : List (List F)) :
    ScalerParams × List (List F) :=
  let σ := fitScaler feature_range rows
  (σ, rows.map (transformRow σ))

/-- The inverse transform of column 0 used by both `predict` methods:
the scaled prediction is placed in column 0 of a zero dummy matrix and
`inverse_transform` (`(x - min_)/scale_`) read back at column 0. -/
def inverseCol0 (σ : ScalerParams) (p : ℚ) : F :=
  fdiv (fsub (some p) (σ.min_.getD 0 none)) (σ.scale_.getD 0 none)

/-- One output row of the gap fillers (`fill_gaps` result columns). -/
structure FilledRow where
  value : F
  filled_value : F
  predicted_value : F
  was_gap : Bool
  gap_filled : Bool
deriving DecidableEq

/-- The windowing/fill results both fillers produce from a prepared
feature table. -/
structure Prepared where
  X : List (List (List F))
  y : List F
  masks : List Bool
  scaler : ScalerParams
deriving DecidableEq

namespace LSTMGapFiller

/-! ### `LSTMGapFiller` (src/backend/lstm_gap_filler.py)

A series is a list of `(timestamp, value)` pairs with an hour-count
timestamp.  `sin2pi`/`cos2pi` implement `x ↦ sin(2πx)` / `x ↦ cos(2πx)`
for the cyclical encodings. -/

/-- One feature row of `prepare_data`: the columns
`['PM25_filled_temp', 'hour_sin', 'hour_cos', 'day_sin', 'day_cos',
'is_weekend']` built by `add_temporal_features` plus the temporary
fill. -/
def featureRow (sin2pi cos2pi : ℚ → ℚ) (temp : List F) (ts : List ℕ) (i : ℕ) : List F :=
  let t := ts.getD i 0
  [ temp.getD i none,
    some (sin2pi ((hourOf t : ℚ) / 24)),
    some (cos2pi ((hourOf t : ℚ) / 24)),
    some (sin2pi ((dayOfWeek t : ℚ) / 7)),
    some (cos2pi ((dayOfWeek t : ℚ) / 7)),
    some (if isWeekend t then 1 else 0) ]

/-- The full feature table of `prepare_data` (one row per input
timestamp). -/
def featureTable (sin2pi cos2pi : ℚ → ℚ) (df : List (ℕ × F)) : List (List F) :=
  let temp := tempFilled (df.map Prod.snd)
  (List.range df.length).map (featureRow sin2pi cos2pi temp (df.map Prod.fst))

/-- `LSTMGapFiller.prepare_data` (lines 59-96): build the feature
table, `fit_transform` it with a fresh `MinMaxScaler(feature_range=(0,1))`,
then slide the window: for each `i < len - sequence_length` emit window
`scaled[i : i+sequence_length]`, target `scaled[i+sequence_length, 0]`
and the gap mask of the target row.  Total: a short series just
produces empty window lists (Python `range` over a non-positive bound),
no error is raised. -/
def prepare_data (sin2pi cos2pi : ℚ → ℚ) (df : List (ℕ × F))
    (sequence_length : ℕ) : Prepared :=
  let vals := df.map Prod.snd
  let has_gap : ℕ → Bool := fun i => (vals.getD i none).isNone
  let rows := featureTable sin2pi cos2pi df
  let ft := fitTransform (0, 1) rows
  let scaled := ft.2
  let nWin := df.length - sequence_length
  { X := (List.range nWin).map (fun i => (scaled.drop i).take sequence_length)
    y := (List.range nWin).map (fun i => (scaled.getD (i + sequence_length) []).getD 0 none)
    masks := (List.range nWin).map (fun i => has_gap (i + sequence_length))
    scaler := ft.1 }

/-- `LSTMGapFiller.predict` (lines 159-171) applied after training:
run the network on each window and inverse-transform column 0 of the
scaled output. -/
def predictAll (σ : ScalerParams) (net : List (List F) → ℚ)
    (X : List (List (List F))) : List F :=
  X.map (fun w => inverseCol0 σ (net w))

/-- `LSTMGapFiller.fill_gaps` (lines 173-223).  `fitF` stands for
`build_model` + `train`: it receives the train/validation split of the
non-gap windows and returns the trained network.  The non-gap windows
are split `80/20` (`train_ratio` default 0.8, `int(len*0.8)` modelled
as `len*4/5` in ℕ).  Predictions are made for every window; rows from
`sequence_length` on get a `predicted_value`, and only the gap targets
(`aligned_index[gaps]`) have their `filled_value` replaced by the
prediction. -/
def fill_gaps (sin2pi cos2pi : ℚ → ℚ)
    (fitF : List (List (List F)) → List F → List (List (List F)) → List F →
      (List (List F) → ℚ))
    (df : List (ℕ × F)) (sequence_length : ℕ) : List FilledRow :=
  let prep := prepare_data sin2pi cos2pi df sequence_length
  let xy := (prep.X.zip prep.y).zip prep.masks
  let keep := (xy.filter (fun p => !p.2)).map Prod.fst
  let split_idx := keep.length * 4 / 5
  let net := fitF ((keep.take split_idx).map Prod.fst)
    ((keep.take split_idx).map Prod.snd)
    ((keep.drop split_idx).map Prod.fst)
    ((keep.drop split_idx).map Prod.snd)
  let predictions := predictAll prep.scaler net prep.X
  let vals := df.map Prod.snd
  let gapAt : ℕ → Bool := fun i =>
    decide (sequence_length ≤ i) && prep.masks.getD (i - sequence_length) false
  (List.range df.length).map (fun i =>
    let predicted := if sequence_length ≤ i
      then predictions.getD (i - sequence_length) none else none
    { value := vals.getD i none
      filled_value := if gapAt i then predicted else vals.getD i none
      predicted_value := predicted
      was_gap := gapAt i
      gap_filled := gapAt i })

end LSTMGapFiller

namespace EnhancedLSTMModel

/-! ### `EnhancedLSTMModel` (src/backend/enhanced_lstm_model.py)

The state record carries what `__init__`, `train`, `save_model` and
`load_model` touch; the learned network weights are an opaque type `W`
and the forward pass an explicit parameter, since TensorFlow internals
are outside the embedded code. -/

/-- The metadata the model records and persists (the source dict also
carries informational strings and training losses; the shape-relevant
fields are the ones below). -/
structure Metadata where
  n_features : ℕ
  sequence_length : ℕ
deriving DecidableEq

/-- `EnhancedLSTMModel`'s mutable attributes: fresh instances start
with an unfitted scaler (`none`) and no model. -/
structure State (W : Type) where
  sequence_length : ℕ
  model_path : String
  scaler : Option ScalerParams
  model : Option W
  metadata : Metadata
deriving DecidableEq

/-- The persisted bundle: the `.keras` weights file, the
`_scaler.npy` dict (all eight `MinMaxScaler` attributes, i.e. a whole
`ScalerParams`) and the `_metadata.json` file. -/
structure Bundle (W : Type) where
  weights : W
  scaler_data : ScalerParams
  metadata : Metadata
deriving DecidableEq

/-- The number of feature columns of `prepare_training_data`
(`n_features=17` in `build_enhanced_model`). -/
def nFeatures : ℕ := 17

/-- One feature row of `prepare_training_data` (lines 114-120): the 17
columns `PM25_filled_temp`, the five temporal encodings, the six lag
features and the five rolling statistics, in source order. -/
def featureRow (sin2pi cos2pi sqrtQ : ℚ → ℚ) (temp : List F) (ts : List ℕ)
    (i : ℕ) : List F :=
  let t := ts.getD i 0
  [ temp.getD i none,
    some (sin2pi ((hourOf t : ℚ) / 24)),
    some (cos2pi ((hourOf t : ℚ) / 24)),
    some (sin2pi ((dayOfWeek t : ℚ) / 7)),
    some (cos2pi ((dayOfWeek t : ℚ) / 7)),
    some (if isWeekend t then 1 else 0),
    (shiftBfill 1 temp).getD i none,
    (shiftBfill 2 temp).getD i none,
    (shiftBfill 3 temp).getD i none,
    (shiftBfill 6 temp).getD i none,
    (shiftBfill 12 temp).getD i none,
    (shiftBfill 24 temp).getD i none,
    (rollingMean 6 temp).getD i none,
    (fillna0 (rollingStd sqrtQ 6 temp)).getD i none,
    (rollingMean 24 temp).getD i none,
    (rollingMax 24 temp).getD i none,
    (rollingMin 24 temp).getD i none ]

/-- The full 17-column feature table of `prepare_training_data`. -/
def featureTable (sin2pi cos2pi sqrtQ : ℚ → ℚ) (df : List (ℕ × F)) :
    List (List F) :=
  let temp := tempFilled (df.map Prod.snd)
  (List.range df.length).map (featureRow sin2pi cos2pi sqrtQ temp (df.map Prod.fst))

/-- `EnhancedLSTMModel.prepare_training_data` (lines 93-132): build the
17-feature table, `fit_transform` it with `self.scaler` — refitting the
scaler on the current input regardless of any previously loaded state —
and slide the window exactly as the simple filler does.  Returns the
updated model state (its scaler now the freshly fitted one) and the
windows.  Total: a short series yields empty window lists, no error. -/
def prepare_training_data {W : Type} (sin2pi cos2pi sqrtQ : ℚ → ℚ)
    (s : State W) (df : List (ℕ × F)) : State W × Prepared :=
  let vals := df.map Prod.snd
  let has_gap : ℕ → Bool := fun i => (vals.getD i none).isNone
  let rows := featureTable sin2pi cos2pi sqrtQ df
  let ft := fitTransform (0, 1) rows
  let scaled := ft.2
  let nWin := df.length - s.sequence_length
  ({ s with scaler := some ft.1 },
   { X := (List.range nWin).map (fun i => (scaled.drop i).take s.sequence_length)
     y := (List.range nWin).map (fun i => (scaled.getD (i + s.sequence_length) []).getD 0 none)
     masks := (List.range nWin).map (fun i => has_gap (i + s.sequence_length))
     scaler := ft.1 })

/-- `EnhancedLSTMModel.predict` (lines 232-244): fails when no model is
trained or loaded, otherwise runs the forward pass per window and
inverse-transforms column 0 with `self.scaler` (which must be
fitted). -/
def predict {W : Type} (forward : W → List (List F) → ℚ) (s : State W)
    (X : List (List (List F))) : Except String (List F) :=
  match s.model with
  | none => .error "Model not trained or loaded"
  | some w =>
    match s.scaler with
    | none => .error "scaler not fitted"
    | some σ => .ok (X.map (fun win => inverseCol0 σ (forward w win)))

/-- `EnhancedLSTMModel.save_model` (lines 246-277): fails when there is
no model; otherwise writes the weights, every fitted scaler attribute,
and the metadata as one bundle.  (An unfitted scaler has none of the
persisted attributes, which in Python is an `AttributeError`.) -/
def save_model {W : Type} (s : State W) : Except String (Bundle W) :=
  match s.model with
  | none => .error "No model to save"
  | some w =>
    match s.scaler with
    | none => .error "scaler not fitted"
    | some σ => .ok { weights := w, scaler_data := σ, metadata := s.metadata }

/-- `EnhancedLSTMModel.load_model` (lines 279-307): installs the
bundle's weights, rebuilds the scaler from all persisted attributes and
replaces the metadata.  There is no validation of any kind — in
particular no comparison of the bundle's feature count against the
current configuration. -/
def load_model {W : Type} (s : State W) (b : Bundle W) : State W :=
  { s with model := some b.weights, scaler := some b.scaler_data,
           metadata := b.metadata }

/-- One output row of `EnhancedLSTMModel.fill_gaps`: the simple
filler's columns plus the constant placeholder `confidence = 0.95`. -/
structure EFilledRow where
  value : F
  filled_value : F
  predicted_value : F
  was_gap : Bool
  gap_filled : Bool
  confidence : ℚ
deriving DecidableEq

/-- `EnhancedLSTMModel.fill_gaps` (lines 309-369): prepare the data
(refitting the scaler on this input), train a model on the non-gap
windows (90/10 split, `int(len*0.9)` modelled as `len*9/10` in ℕ) only
when none is installed, predict every window, and replace
`filled_value` by the prediction exactly at the gap targets from
`sequence_length` on.  `fitF` stands for `build_enhanced_model` +
`train`.  Returns the updated state and the result rows. -/
def fill_gaps {W : Type} (sin2pi cos2pi sqrtQ : ℚ → ℚ)
    (forward : W → List (List F) → ℚ)
    (fitF : List (List (List F)) → List F → List (List (List F)) → List F → W)
    (s : State W) (df : List (ℕ × F)) : State W × List EFilledRow :=
  let sp := prepare_training_data sin2pi cos2pi sqrtQ s df
  let s1 := sp.1
  let prep := sp.2
  let s2 :=
    match s1.model with
    | some _ => s1
    | none =>
      let xy := (prep.X.zip prep.y).zip prep.masks
      let keep := (xy.filter (fun p => !p.2)).map Prod.fst
      let split_idx := keep.length * 9 / 10
      let w := fitF ((keep.take split_idx).map Prod.fst)
        ((keep.take split_idx).map Prod.snd)
        ((keep.drop split_idx).map Prod.fst)
        ((keep.drop split_idx).map Prod.snd)
      { s1 with model := some w }
  let predictions :=
    match s2.model, s2.scaler with
    | some w, some σ => prep.X.map (fun win => inverseCol0 σ (forward w win))
    | _, _ => []
  let vals := df.map Prod.snd
  let gapAt : ℕ → Bool := fun i =>
    decide (s.sequence_length ≤ i) && prep.masks.getD (i - s.sequence_length) false
  (s2, (List.range df.length).map (fun i =>
    let predicted := if s.sequence_length ≤ i
      then predictions.getD (i - s.sequence_length) none else none
    { value := vals.getD i none
      filled_value := if gapAt i then predicted else vals.getD i none
      predicted_value := predicted
      was_gap := gapAt i
      gap_filled := gapAt i
      confidence := 19/20 }))

end EnhancedLSTMModel

/-! ### Concrete sample data used by witnesses and counterexamples -/

/-- A default output row (all columns missing / false). -/
def defaultRow : FilledRow :=
  { value := none, filled_value := none, predicted_value := none,
    was_gap := false, gap_filled := false }

/-- A default enhanced output row. -/
def defaultERow : EnhancedLSTMModel.EFilledRow :=
  { value := none, filled_value := none, predicted_value := none,
    was_gap := false, gap_filled := false, confidence := 0 }

/-- A concrete fitted-scaler state with six features (the simple
filler's width), used to exercise persistence. -/
def sampleScaler6 : ScalerParams :=
  { data_min_ := [some 0], data_max_ := [some 10], data_range_ := [some 10],
    scale_ := [some (1/10)], min_ := [some 0],
    n_features_in_ := 6, n_samples_seen_ := 30, feature_range := (0, 1) }

/-- A freshly constructed enhanced model state (unfitted scaler, no
model), with trivial weights type. -/
def sampleFreshState : EnhancedLSTMModel.State Unit :=
  { sequence_length := 24, model_path := "models", scaler := none,
    model := none, metadata := { n_features := 17, sequence_length := 24 } }

/-- A trained enhanced model state: weights installed and scaler
fitted. -/
def sampleTrainedState : EnhancedLSTMModel.State Unit :=
  { sequence_length := 24, model_path := "models", scaler := some sampleScaler6,
    model := some (), metadata := { n_features := 17, sequence_length := 24 } }

/-- A persisted bundle recording six features, mismatching the
seventeen-feature configuration of the enhanced model. -/
def sampleBundle6 : EnhancedLSTMModel.Bundle Unit :=
  { weights := (), scaler_data := sampleScaler6,
    metadata := { n_features := 6, sequence_length := 24 } }

/-- A four-point hourly series whose first point is a gap. -/
def sampleGapSeries : List (ℕ × F) :=
  [(0, none), (1, some 1), (2, some 2), (3, some 3)]

/-- A fresh enhanced model state with window length 2, matching
`sampleGapSeries`. -/
def sampleFreshState2 : EnhancedLSTMModel.State Unit :=
  { sequence_length := 2, model_path := "models", scaler := none,
    model := none, metadata := { n_features := 17, sequence_length := 2 } }

/-! ### Helper lemmas -/

theorem getD_range_map {α : Type} (f : ℕ → α) {n i : ℕ} (h : i < n) (d : α) :
    ((List.range n).map f).getD i d = f i := by
  rw [List.getD_eq_getElem?_getD, List.getElem?_map, List.getElem?_range h]
  rfl

theorem mem_range_map {α : Type} {f : ℕ → α} {n : ℕ} {p : α}
    (h : p ∈ (List.range n).map f) : ∃ i, i < n ∧ p = f i := by
  obtain ⟨i, hi, rfl⟩ := List.mem_map.mp h
  exact ⟨i, List.mem_range.mp hi, rfl⟩

theorem getD_map_of_lt {α β : Type} (f : α → β) {xs : List α} {i : ℕ}
    (h : i < xs.length) (d : β) (d' : α) :
    (xs.map f).getD i d = f (xs.getD i d') := by
  rw [List.getD_eq_getElem?_getD, List.getElem?_map,
    List.getElem?_eq_getElem h, List.getD_eq_getElem?_getD,
    List.getElem?_eq_getElem h]
  rfl

theorem map_getD_range {α : Type} (xs : List α) (d : α) :
    (List.range xs.length).map (fun i => xs.getD i d) = xs := by
  apply List.ext_getElem
  · simp
  · intro i h1 h2
    simp [List.getD_eq_getElem?_getD, List.getElem?_range,
      List.getElem?_eq_getElem, h2]

theorem getD_mem {α : Type} {xs : List α} {i : ℕ} (h : i < xs.length) (d : α) :
    xs.getD i d ∈ xs := by
  rw [List.getD_eq_getElem?_getD, List.getElem?_eq_getElem h]
  exact List.getElem_mem h

theorem dropna_map_some (xs : List ℚ) : dropna (xs.map some) = xs := by
  induction xs with
  | nil => rfl
  | cons x xs ih =>
    simp only [List.map_cons, dropna] at ih ⊢
    simp [ih]

theorem getD_lt_of_ne_default {α : Type} [DecidableEq α] {xs : List α} {i : ℕ}
    {d : α} (h : xs.getD i d ≠ d) : i < xs.length := by
  by_contra hc
  exact h (List.getD_eq_default xs d (Nat.le_of_not_lt hc))

/-! ### Claim theorems -/

open AnomalyDetector in
/-- Claim C8: for every pollutant threshold table the domain
classification is monotone — `v1 ≤ v2` never gives `v2` a less severe
health level than `v1` — and, for each of the three tables the detector
defines, a value exactly equal to a band's lower bound classifies into
that band (the `≥` cascade checked from `hazardous` down resolves
boundary ties to the more severe band). -/
theorem C8_domain_monotone_boundary :
    (∀ (t : Thresholds) (v1 v2 : ℚ), v1 ≤ v2 →
      severity (classifyValue t (some v1)).1 ≤ severity (classifyValue t (some v2)).1)
    ∧ ((classifyValue pm25Thresholds (some 35)).1 = .moderate
      ∧ (classifyValue pm25Thresholds (some 55)).1 = .unhealthy_sensitive
      ∧ (classifyValue pm25Thresholds (some 150)).1 = .unhealthy
      ∧ (classifyValue pm25Thresholds (some 250)).1 = .very_unhealthy
      ∧ (classifyValue pm25Thresholds (some 500)).1 = .hazardous)
    ∧ ((classifyValue pm10Thresholds (some 150)).1 = .moderate
      ∧ (classifyValue pm10Thresholds (some 250)).1 = .unhealthy_sensitive
      ∧ (classifyValue pm10Thresholds (some 350)).1 = .unhealthy
      ∧ (classifyValue pm10Thresholds (some 420)).1 = .very_unhealthy
      ∧ (classifyValue pm10Thresholds (some 600)).1 = .hazardous)
    ∧ ((classifyValue o3Thresholds (some 160)).1 = .moderate
      ∧ (classifyValue o3Thresholds (some 200)).1 = .unhealthy_sensitive
      ∧ (classifyValue o3Thresholds (some 300)).1 = .unhealthy
      ∧ (classifyValue o3Thresholds (some 400)).1 = .very_unhealthy
      ∧ (classifyValue o3Thresholds (some 600)).1 = .hazardous) := by
  refine ⟨?_, ?_, ?_, ?_⟩
  · intro t v1 v2 h
    simp only [classifyValue]
    split_ifs <;> simp_all [severity] <;> linarith
  · norm_num [classifyValue, pm25Thresholds]
  · norm_num [classifyValue, pm10Thresholds]
  · norm_num [classifyValue, o3Thresholds]

open AnomalyDetector in
/-- Witness for C8: the monotonicity part applied at the concrete pair
3 ≤ 500 on the PM2.5 table. -/
theorem C8_witness :
    severity (classifyValue pm25Thresholds (some 3)).1
      ≤ severity (classifyValue pm25Thresholds (some 500)).1 :=
  C8_domain_monotone_boundary.1 pm25Thresholds 3 500 (by norm_num)

open EnhancedLSTMModel in
/-- Counterexample to claim C6 as stated: loading a bundle whose
recorded feature count (6) differs from the enhanced model's configured
feature count (17) does not fail — `load_model` has no validation and
no `ModelMismatchError` exists anywhere in the repository — it installs
the mismatched weights and scaler. -/
theorem C6_counterexample :
    sampleBundle6.scaler_data.n_features_in_ ≠ nFeatures
    ∧ (load_model sampleFreshState sampleBundle6).model = some sampleBundle6.weights
    ∧ (load_model sampleFreshState sampleBundle6).scaler = some sampleBundle6.scaler_data := by
  refine ⟨by decide, rfl, rfl⟩

open EnhancedLSTMModel in
/-- Claim C6 amended: for every persisted bundle whose recorded feature
count does not match the current configuration's feature count, the
load operation nevertheless installs the bundle's model, scaler and
metadata unconditionally — no feature-count check is performed and no
`ModelMismatchError` is raised (the type of `load_model` is total). -/
theorem C6_load_installs_unconditionally {W : Type} (s : State W) (b : Bundle W)
    (_h : b.scaler_data.n_features_in_ ≠ nFeatures) :
    (load_model s b).model = some b.weights
    ∧ (load_model s b).scaler = some b.scaler_data
    ∧ (load_model s b).metadata = b.metadata
    ∧ (load_model s b).sequence_length = s.sequence_length :=
  ⟨rfl, rfl, rfl, rfl⟩

open EnhancedLSTMModel in
/-- Witness for the amended C6 at the concrete mismatched bundle. -/
theorem C6_witness :
    (load_model sampleFreshState sampleBundle6).model = some sampleBundle6.weights
    ∧ (load_model sampleFreshState sampleBundle6).scaler = some sampleBundle6.scaler_data
    ∧ (load_model sampleFreshState sampleBundle6).metadata = sampleBundle6.metadata
    ∧ (load_model sampleFreshState sampleBundle6).sequence_length
        = sampleFreshState.sequence_length :=
  C6_load_installs_unconditionally sampleFreshState sampleBundle6 (by decide)

open EnhancedLSTMModel in
/-- Claim C5: saving a trained model bundle (weights, fitted scaler
parameters, metadata) and reloading it — into any prior state —
reproduces exactly the predictions of the original in-memory model on
the same input windows.  `save_model` persists every `MinMaxScaler`
attribute and the weights, `load_model` restores them all, and
`predict` is a deterministic function of exactly that restored state,
so the round trip is prediction-identical (in the embedding's exact
arithmetic; on the float side the persisted arrays are stored
bit-exactly). -/
theorem C5_save_load_roundtrip {W : Type} (forward : W → List (List F) → ℚ)
    (s s0 : State W) (w : W) (σ : ScalerParams)
    (h1 : s.model = some w) (h2 : s.scaler = some σ)
    (X : List (List (List F))) :
    save_model s = .ok { weights := w, scaler_data := σ, metadata := s.metadata }
    ∧ predict forward
        (load_model s0 { weights := w, scaler_data := σ, metadata := s.metadata }) X
      = predict forward s X := by
  constructor
  · simp [save_model, h1, h2]
  · simp [predict, load_model, h1, h2]

open EnhancedLSTMModel in
/-- Witness for C5 at a concrete trained state and window list. -/
theorem C5_witness :
    save_model sampleTrainedState
      = .ok { weights := (), scaler_data := sampleScaler6,
              metadata := sampleTrainedState.metadata }
    ∧ predict (fun _ _ => 0)
        (load_model sampleFreshState
          { weights := (), scaler_data := sampleScaler6,
            metadata := sampleTrainedState.metadata }) [[[some 1]]]
      = predict (fun _ _ => 0) sampleTrainedState [[[some 1]]] :=
  C5_save_load_roundtrip (fun _ _ => 0) sampleTrainedState sampleFreshState ()
    sampleScaler6 rfl rfl [[[some 1]]]

open EnhancedLSTMModel in
/-- Claim C9: `fill_gaps` always re-fits the min-max scaler on the
current input's feature table inside `prepare_training_data`
(`fit_transform`), so its entire result — state and rows, hence the
predictions — is independent of whatever scaler state was previously
installed (e.g. restored by `load_model`), and the scaler it leaves
installed is exactly the one fitted to the current input's features. -/
theorem C9_fill_gaps_refits_scaler {W : Type} (sin2pi cos2pi sqrtQ : ℚ → ℚ)
    (forward : W → List (List F) → ℚ)
    (fitF : List (List (List F)) → List F → List (List (List F)) → List F → W)
    (s : State W) (σ1 σ2 : Option ScalerParams) (df : List (ℕ × F)) :
    fill_gaps sin2pi cos2pi sqrtQ forward fitF { s with scaler := σ1 } df
      = fill_gaps sin2pi cos2pi sqrtQ forward fitF { s with scaler := σ2 } df
    ∧ (fill_gaps sin2pi cos2pi sqrtQ forward fitF s df).1.scaler
      = some (fitScaler (0, 1) (featureTable sin2pi cos2pi sqrtQ df)) := by
  constructor
  · rfl
  · cases h : s.model <;>
      simp [fill_gaps, prepare_training_data, fitTransform, h]

/-- Counterexample to claim C4 as stated: a 2-point series with
`sequence_length = 24` (fewer timestamps than `sequence_length + 1`)
does not make the gap-fill preparation fail with
`InsufficientDataError` — no such error exists in the repository; both
windowers return normally with zero `(window, target)` pairs. -/
theorem C4_counterexample :
    (LSTMGapFiller.prepare_data (fun _ => 0) (fun _ => 0)
        [(0, some 1), (1, some 2)] 24).X = []
    ∧ (LSTMGapFiller.prepare_data (fun _ => 0) (fun _ => 0)
        [(0, some 1), (1, some 2)] 24).masks = []
    ∧ (EnhancedLSTMModel.prepare_training_data (fun _ => 0) (fun _ => 0) (fun _ => 0)
        sampleFreshState [(0, some 1), (1, some 2)]).2.X = [] :=
  ⟨rfl, rfl, rfl⟩

/-- Claim C4 amended: for every series of `N` timestamps both windowers
emit exactly `N - sequence_length` (truncated at zero) `(window,
target)` pairs — so exactly `N - sequence_length` when
`N ≥ sequence_length + 1`, e.g. 6 pairs for a 30-point series with
`sequence_length` 24 — and when `N < sequence_length + 1` the
preparation returns normally with zero windows rather than failing
(`InsufficientDataError` does not exist in the code). -/
theorem C4_window_count {W : Type} (sin2pi cos2pi sqrtQ : ℚ → ℚ)
    (s : EnhancedLSTMModel.State W) (df : List (ℕ × F)) (sequence_length : ℕ) :
    (LSTMGapFiller.prepare_data sin2pi cos2pi df sequence_length).X.length
      = df.length - sequence_length
    ∧ (LSTMGapFiller.prepare_data sin2pi cos2pi df sequence_length).masks.length
      = df.length - sequence_length
    ∧ (EnhancedLSTMModel.prepare_training_data sin2pi cos2pi sqrtQ s df).2.X.length
      = df.length - s.sequence_length
    ∧ (EnhancedLSTMModel.prepare_training_data sin2pi cos2pi sqrtQ s df).2.masks.length
      = df.length - s.sequence_length := by
  refine ⟨?_, ?_, ?_, ?_⟩ <;>
    simp [LSTMGapFiller.prepare_data, EnhancedLSTMModel.prepare_training_data]

theorem lstm_masks_getD (sin2pi cos2pi : ℚ → ℚ) (df : List (ℕ × F))
    {sequence_length i : ℕ} (hseq : sequence_length ≤ i) (hi : i < df.length) :
    (LSTMGapFiller.prepare_data sin2pi cos2pi df sequence_length).masks.getD
        (i - sequence_length) false
      = ((df.map Prod.snd).getD i none).isNone := by
  simp only [LSTMGapFiller.prepare_data]
  rw [getD_range_map _ (by omega)]
  rw [Nat.sub_add_cancel hseq]

theorem enhanced_masks_getD {W : Type} (sin2pi cos2pi sqrtQ : ℚ → ℚ)
    (s : EnhancedLSTMModel.State W) (df : List (ℕ × F)) {i : ℕ}
    (hseq : s.sequence_length ≤ i) (hi : i < df.length) :
    (EnhancedLSTMModel.prepare_training_data sin2pi cos2pi sqrtQ s df).2.masks.getD
        (i - s.sequence_length) false
      = ((df.map Prod.snd).getD i none).isNone := by
  simp only [EnhancedLSTMModel.prepare_training_data]
  rw [getD_range_map _ (by omega)]
  rw [Nat.sub_add_cancel hseq]

/-- Claim C2: in both gap fillers, every point whose original raw value
is present keeps exactly that value in `filled_value`; predictions
replace the value only at gap targets. -/
theorem C2_nongap_points_preserved :
    (∀ (sin2pi cos2pi : ℚ → ℚ)
      (fitF : List (List (List F)) → List F → List (List (List F)) → List F →
        (List (List F) → ℚ))
      (df : List (ℕ × F)) (sequence_length i : ℕ) (v : ℚ),
      (df.map Prod.snd).getD i none = some v →
      ((LSTMGapFiller.fill_gaps sin2pi cos2pi fitF df sequence_length).getD
          i defaultRow).filled_value = some v)
    ∧ (∀ (W : Type) (sin2pi cos2pi sqrtQ : ℚ → ℚ)
      (forward : W → List (List F) → ℚ)
      (fitF : List (List (List F)) → List F → List (List (List F)) → List F → W)
      (s : EnhancedLSTMModel.State W) (df : List (ℕ × F)) (i : ℕ) (v : ℚ),
      (df.map Prod.snd).getD i none = some v →
      (((EnhancedLSTMModel.fill_gaps sin2pi cos2pi sqrtQ forward fitF s df).2).getD
          i defaultERow).filled_value = some v) := by
  constructor
  · intro sin2pi cos2pi fitF df seq i v h
    have hi : i < df.length := by
      have h2 := @getD_lt_of_ne_default F _ (df.map Prod.snd) i none
        (by rw [h]; exact fun hc => Option.noConfusion hc)
      simpa using h2
    simp only [LSTMGapFiller.fill_gaps]
    rw [getD_range_map _ hi]
    by_cases hseq : seq ≤ i
    · have hm : (LSTMGapFiller.prepare_data sin2pi cos2pi df seq).masks.getD
          (i - seq) false = false := by
        rw [lstm_masks_getD sin2pi cos2pi df hseq hi, h]
        rfl
      simp only [hm, Bool.and_false, if_neg Bool.false_ne_true]
      exact h
    · have hd : decide (seq ≤ i) = false := by simp [hseq]
      simp only [hd, Bool.false_and, if_neg Bool.false_ne_true]
      exact h
  · intro W sin2pi cos2pi sqrtQ forward fitF s df i v h
    have hi : i < df.length := by
      have h2 := @getD_lt_of_ne_default F _ (df.map Prod.snd) i none
        (by rw [h]; exact fun hc => Option.noConfusion hc)
      simpa using h2
    simp only [EnhancedLSTMModel.fill_gaps]
    rw [getD_range_map _ hi]
    by_cases hseq : s.sequence_length ≤ i
    · have hm : (EnhancedLSTMModel.prepare_training_data sin2pi cos2pi sqrtQ
          s df).2.masks.getD (i - s.sequence_length) false = false := by
        rw [enhanced_masks_getD sin2pi cos2pi sqrtQ s df hseq hi, h]
        rfl
      simp only [hm, Bool.and_false, if_neg Bool.false_ne_true]
      exact h
    · have hd : decide (s.sequence_length ≤ i) = false := by simp [hseq]
      simp only [hd, Bool.false_and, if_neg Bool.false_ne_true]
      exact h

/-- Witness for C2: both fillers on concrete one-point series whose
single value is present. -/
theorem C2_witness :
    ((LSTMGapFiller.fill_gaps (fun _ => 0) (fun _ => 0) (fun _ _ _ _ => fun _ => 0)
        [(0, some 7)] 24).getD 0 defaultRow).filled_value = some 7
    ∧ (((EnhancedLSTMModel.fill_gaps (fun _ => 0) (fun _ => 0) (fun _ => 0)
        (fun _ _ => 0) (fun _ _ _ _ => ()) sampleFreshState [(0, some 7)]).2).getD
          0 defaultERow).filled_value = some 7 :=
  ⟨C2_nongap_points_preserved.1 (fun _ => 0) (fun _ => 0) (fun _ _ _ _ => fun _ => 0)
      [(0, some 7)] 24 0 7 rfl,
   C2_nongap_points_preserved.2 Unit (fun _ => 0) (fun _ => 0) (fun _ => 0)
      (fun _ _ => 0) (fun _ _ _ _ => ()) sampleFreshState [(0, some 7)] 0 7 rfl⟩

theorem length_ffillAux (acc : F) (xs : List F) :
    (ffillAux acc xs).length = xs.length := by
  induction xs generalizing acc with
  | nil => rfl
  | cons x xs ih => cases x <;> simp [ffillAux, ih]

theorem length_bfill (xs : List F) : (bfill xs).length = xs.length := by
  induction xs with
  | nil => rfl
  | cons x xs ih => cases x <;> simp [bfill, ih]

theorem length_tempFilled (xs : List F) : (tempFilled xs).length = xs.length := by
  rw [tempFilled, ffill, length_bfill, length_ffillAux]

theorem dropna_ne_nil {zs : List F} (h : ∃ y ∈ zs, y.isSome) :
    dropna zs ≠ [] := by
  obtain ⟨y, hy, hsome⟩ := h
  obtain ⟨q, rfl⟩ := Option.isSome_iff_exists.mp hsome
  have hmem : q ∈ dropna zs := List.mem_filterMap.mpr ⟨some q, hy, rfl⟩
  intro hc
  rw [hc] at hmem
  cases hmem

theorem nextSome_isSome {zs : List F} (h : ∃ y ∈ zs, y.isSome) :
    (nextSome zs).isSome := by
  cases hd : dropna zs with
  | nil => exact absurd hd (dropna_ne_nil h)
  | cons v vs => simp [nextSome, hd]

theorem ffillAux_exists_some {xs : List F} (acc : F)
    (h : ∃ x ∈ xs, x.isSome) : ∃ y ∈ ffillAux acc xs, y.isSome := by
  induction xs generalizing acc with
  | nil => obtain ⟨x, hx, _⟩ := h; cases hx
  | cons x xs ih =>
    cases x with
    | some v => exact ⟨some v, List.mem_cons_self _ _, rfl⟩
    | none =>
      obtain ⟨x, hx, hsome⟩ := h
      rcases List.mem_cons.mp hx with rfl | hx'
      · cases hsome
      · obtain ⟨y, hy, hysome⟩ := ih acc ⟨x, hx', hsome⟩
        exact ⟨y, List.mem_cons_of_mem _ hy, hysome⟩

theorem bfill_ffillAux_all_some {xs : List F} (acc : F)
    (h : acc.isSome ∨ ∃ x ∈ xs, x.isSome) :
    ∀ y ∈ bfill (ffillAux acc xs), y.isSome := by
  induction xs generalizing acc with
  | nil => intro y hy; cases hy
  | cons x xs ih =>
    cases x with
    | some v =>
      intro y hy
      rcases List.mem_cons.mp hy with rfl | hy'
      · rfl
      · exact ih (some v) (Or.inl rfl) y hy'
    | none =>
      cases acc with
      | some a =>
        intro y hy
        rcases List.mem_cons.mp hy with rfl | hy'
        · rfl
        · refine ih (some a) (Or.inl rfl) y hy'
      | none =>
        have hxs : ∃ x ∈ xs, x.isSome := by
          rcases h with hacc | ⟨x, hx, hsome⟩
          · cases hacc
          · rcases List.mem_cons.mp hx with rfl | hx'
            · cases hsome
            · exact ⟨x, hx', hsome⟩
        intro y hy
        rcases List.mem_cons.mp hy with rfl | hy'
        · exact nextSome_isSome (ffillAux_exists_some none hxs)
        · exact ih none (Or.inr hxs) y hy'

theorem tempFilled_all_some {xs : List F} (h : ∃ x ∈ xs, x.isSome) :
    ∀ y ∈ tempFilled xs, y.isSome :=
  bfill_ffillAux_all_some none (Or.inr h)

theorem headD_range_map {α : Type} (f : ℕ → α) {n : ℕ} (h : 0 < n) (d : α) :
    ((List.range n).map f).headD d = f 0 := by
  cases n with
  | zero => cases h
  | succ n => rw [List.range_succ_eq_map]; rfl

theorem colAt_featureTable_all_some (sin2pi cos2pi : ℚ → ℚ)
    (df : List (ℕ × F)) (hpres : ∃ x ∈ df.map Prod.snd, x.isSome) :
    ∀ y ∈ colAt (LSTMGapFiller.featureTable sin2pi cos2pi df) 0, y.isSome := by
  intro y hy
  simp only [colAt, LSTMGapFiller.featureTable, List.map_map] at hy
  obtain ⟨i, hi, rfl⟩ := mem_range_map hy
  show ((tempFilled (df.map Prod.snd)).getD i none).isSome
  have hlen : i < (tempFilled (df.map Prod.snd)).length := by
    rw [length_tempFilled, List.length_map]
    exact hi
  exact tempFilled_all_some hpres _ (getD_mem hlen none)

theorem fitScaler_col0 (rows : List (List F)) (hne : rows.length ≠ 0)
    (hnf : (rows.headD []).length ≠ 0)
    (hcol : ∀ y ∈ colAt rows 0, y.isSome) :
    ∃ s m : ℚ, s ≠ 0
      ∧ (fitScaler (0, 1) rows).scale_.getD 0 none = some s
      ∧ (fitScaler (0, 1) rows).min_.getD 0 none = some m := by
  have h0 : 0 < (rows.headD []).length := Nat.pos_of_ne_zero hnf
  have hcolne : dropna (colAt rows 0) ≠ [] := by
    apply dropna_ne_nil
    have : colAt rows 0 ≠ [] := by
      simp only [colAt]
      intro hc
      exact hne (by simpa using congrArg List.length hc)
    obtain ⟨y, hy⟩ := List.exists_mem_of_ne_nil _ this
    exact ⟨y, hy, hcol y hy⟩
  obtain ⟨a, as, ha⟩ : ∃ a as, dropna (colAt rows 0) = a :: as := by
    cases hd : dropna (colAt rows 0) with
    | nil => exact absurd hd hcolne
    | cons a as => exact ⟨a, as, rfl⟩
  have hmin : colMin (colAt rows 0) = some (as.foldl min a) := by
    rw [colMin, ha]
  have hmax : colMax (colAt rows 0) = some (as.foldl max a) := by
    rw [colMax, ha]
  set lo := as.foldl min a with hlo
  set hi := as.foldl max a with hhi
  set r : ℚ := if hi - lo = 0 then 1 else hi - lo with hr
  have hrne : r ≠ 0 := by
    rw [hr]
    split_ifs with h
    · exact one_ne_zero
    · exact h
  have hscale : scaleCol (0, 1) (colAt rows 0) = some ((1 - 0) / r) := by
    rw [scaleCol, rangeCol, hmin, hmax]
    show fdiv (some (1 - 0)) (handleZeros (some (hi - lo))) = some ((1 - 0) / r)
    rw [show handleZeros (some (hi - lo)) = some r from rfl]
    show (if r = 0 then none else some ((1 - 0) / r)) = some ((1 - 0) / r)
    exact if_neg hrne
  have hminc : minCol (0, 1) (colAt rows 0) = some (0 - lo * ((1 - 0) / r)) := by
    rw [minCol, hscale, hmin]
    rfl
  refine ⟨(1 - 0) / r, 0 - lo * ((1 - 0) / r), div_ne_zero (by norm_num) hrne, ?_, ?_⟩
  · show ((List.range (rows.headD []).length).map
        (fun j => scaleCol (0, 1) (colAt rows j))).getD 0 none = some ((1 - 0) / r)
    rw [getD_range_map _ h0, hscale]
  · show ((List.range (rows.headD []).length).map
        (fun j => minCol (0, 1) (colAt rows j))).getD 0 none = some (0 - lo * ((1 - 0) / r))
    rw [getD_range_map _ h0, hminc]

theorem inverseCol0_isSome {σ : ScalerParams} {s m : ℚ} (hs0 : s ≠ 0)
    (h1 : σ.scale_.getD 0 none = some s)
    (h2 : σ.min_.getD 0 none = some m) (p : ℚ) :
    (inverseCol0 σ p).isSome := by
  rw [inverseCol0, h1, h2]
  show (fdiv (some (p - m)) (some s)).isSome
  rw [fdiv, if_neg hs0]
  rfl

theorem lstm_X_length (sin2pi cos2pi : ℚ → ℚ) (df : List (ℕ × F))
    (sequence_length : ℕ) :
    (LSTMGapFiller.prepare_data sin2pi cos2pi df sequence_length).X.length
      = df.length - sequence_length := by
  simp [LSTMGapFiller.prepare_data]

theorem enhanced_X_length {W : Type} (sin2pi cos2pi sqrtQ : ℚ → ℚ)
    (s : EnhancedLSTMModel.State W) (df : List (ℕ × F)) :
    (EnhancedLSTMModel.prepare_training_data sin2pi cos2pi sqrtQ s df).2.X.length
      = df.length - s.sequence_length := by
  simp [EnhancedLSTMModel.prepare_training_data]

theorem colAt_enhanced_featureTable_all_some (sin2pi cos2pi sqrtQ : ℚ → ℚ)
    (df : List (ℕ × F)) (hpres : ∃ x ∈ df.map Prod.snd, x.isSome) :
    ∀ y ∈ colAt (EnhancedLSTMModel.featureTable sin2pi cos2pi sqrtQ df) 0,
      y.isSome := by
  intro y hy
  simp only [colAt, EnhancedLSTMModel.featureTable, List.map_map] at hy
  obtain ⟨i, hi, rfl⟩ := mem_range_map hy
  show ((tempFilled (df.map Prod.snd)).getD i none).isSome
  have hlen : i < (tempFilled (df.map Prod.snd)).length := by
    rw [length_tempFilled, List.length_map]
    exact hi
  exact tempFilled_all_some hpres _ (getD_mem hlen none)

theorem lstm_featureTable_length (sin2pi cos2pi : ℚ → ℚ) (df : List (ℕ × F)) :
    (LSTMGapFiller.featureTable sin2pi cos2pi df).length = df.length := by
  simp [LSTMGapFiller.featureTable]

theorem enhanced_featureTable_length (sin2pi cos2pi sqrtQ : ℚ → ℚ)
    (df : List (ℕ × F)) :
    (EnhancedLSTMModel.featureTable sin2pi cos2pi sqrtQ df).length = df.length := by
  simp [EnhancedLSTMModel.featureTable]

/-- Counterexample to claim C3 as stated: on the four-point series with
a gap at position 0 (within the first `sequence_length = 2` positions,
where no trailing window exists) the simple filler returns a
`filled_value` that is still missing at that position — the output is
not fully dense. -/
theorem C3_counterexample :
    (sampleGapSeries.map Prod.snd).getD 0 none = none
    ∧ ((LSTMGapFiller.fill_gaps (fun _ => 0) (fun _ => 0) (fun _ _ _ _ => fun _ => 0)
        sampleGapSeries 2).map FilledRow.filled_value).getD 0 (some 0) = none :=
  ⟨rfl, rfl⟩


theorem lstm_fill_length (sin2pi cos2pi : ℚ → ℚ)
    (fitF : List (List (List F)) → List F → List (List (List F)) → List F →
      (List (List F) → ℚ))
    (df : List (ℕ × F)) (sequence_length : ℕ) :
    (LSTMGapFiller.fill_gaps sin2pi cos2pi fitF df sequence_length).length
      = df.length := by
  simp [LSTMGapFiller.fill_gaps]

theorem enhanced_fill_length {W : Type} (sin2pi cos2pi sqrtQ : ℚ → ℚ)
    (forward : W → List (List F) → ℚ)
    (fitF : List (List (List F)) → List F → List (List (List F)) → List F → W)
    (s : EnhancedLSTMModel.State W) (df : List (ℕ × F)) :
    (EnhancedLSTMModel.fill_gaps sin2pi cos2pi sqrtQ forward fitF s df).2.length
      = df.length := by
  simp [EnhancedLSTMModel.fill_gaps]

/-- Claim C3 amended: for every input series with at least one present
value, both gap fillers return a `filled_value` that is non-null at
every position from `sequence_length` on (present values are kept, gap
targets receive the — always defined — prediction), while positions
before `sequence_length` simply keep the original raw value, so a gap
among the first `sequence_length` positions stays null: the output is
dense from `sequence_length` onward only, not at the head of the
series. -/
theorem C3_dense_from_sequence_length :
    (∀ (sin2pi cos2pi : ℚ → ℚ)
      (fitF : List (List (List F)) → List F → List (List (List F)) → List F →
        (List (List F) → ℚ))
      (df : List (ℕ × F)) (sequence_length : ℕ),
      (∃ x ∈ df.map Prod.snd, x.isSome) →
      (∀ i, sequence_length ≤ i → i < df.length →
        (((LSTMGapFiller.fill_gaps sin2pi cos2pi fitF df sequence_length).map
            FilledRow.filled_value).getD i none).isSome)
      ∧ (∀ j, j < sequence_length →
        ((LSTMGapFiller.fill_gaps sin2pi cos2pi fitF df sequence_length).map
            FilledRow.filled_value).getD j none
          = (df.map Prod.snd).getD j none))
    ∧ (∀ (W : Type) (sin2pi cos2pi sqrtQ : ℚ → ℚ)
      (forward : W → List (List F) → ℚ)
      (fitF : List (List (List F)) → List F → List (List (List F)) → List F → W)
      (s : EnhancedLSTMModel.State W) (df : List (ℕ × F)),
      (∃ x ∈ df.map Prod.snd, x.isSome) →
      (∀ i, s.sequence_length ≤ i → i < df.length →
        ((((EnhancedLSTMModel.fill_gaps sin2pi cos2pi sqrtQ forward fitF s df).2).map
            EnhancedLSTMModel.EFilledRow.filled_value).getD i none).isSome)
      ∧ (∀ j, j < s.sequence_length →
        (((EnhancedLSTMModel.fill_gaps sin2pi cos2pi sqrtQ forward fitF s df).2).map
            EnhancedLSTMModel.EFilledRow.filled_value).getD j none
          = (df.map Prod.snd).getD j none)) := by
  constructor
  · intro sin2pi cos2pi fitF df seq hpres
    constructor
    · intro i hseq hi
      have hN : df.length ≠ 0 := by omega
      obtain ⟨sc, mc, hs0, hs, hm⟩ := fitScaler_col0
        (LSTMGapFiller.featureTable sin2pi cos2pi df)
        (by rw [lstm_featureTable_length]; exact hN)
        (by
          rw [show LSTMGapFiller.featureTable sin2pi cos2pi df
              = (List.range df.length).map
                  (LSTMGapFiller.featureRow sin2pi cos2pi
                    (tempFilled (df.map Prod.snd)) (df.map Prod.fst)) from rfl,
            headD_range_map _ (Nat.pos_of_ne_zero hN)]
          simp [LSTMGapFiller.featureRow])
        (colAt_featureTable_all_some sin2pi cos2pi df hpres)
      simp only [LSTMGapFiller.fill_gaps, List.map_map]
      rw [getD_range_map _ hi]
      simp only [Function.comp]
      by_cases hgap : (LSTMGapFiller.prepare_data sin2pi cos2pi df seq).masks.getD
          (i - seq) false = true
      · have hd : decide (seq ≤ i) = true := by simp [hseq]
        simp only [hd, hgap, Bool.and_self, eq_self_iff_true, if_true]
        rw [if_pos hseq]
        have hplen : i - seq < (LSTMGapFiller.prepare_data sin2pi cos2pi df seq).X.length := by
          rw [lstm_X_length]; omega
        simp only [LSTMGapFiller.predictAll]
        rw [getD_map_of_lt _ hplen none []]
        exact inverseCol0_isSome hs0 hs hm _
      · rw [Bool.not_eq_true] at hgap
        simp only [hgap, Bool.and_false, if_neg Bool.false_ne_true]
        have hval := lstm_masks_getD sin2pi cos2pi df hseq hi
        rw [hgap] at hval
        cases hv : (df.map Prod.snd).getD i none with
        | none => rw [hv] at hval; exact Bool.noConfusion hval
        | some q => rfl
    · intro j hj
      by_cases hjn : j < df.length
      · simp only [LSTMGapFiller.fill_gaps, List.map_map]
        rw [getD_range_map _ hjn]
        have hd : decide (seq ≤ j) = false := by
          simp only [decide_eq_false_iff_not]
          omega
        simp only [Function.comp, hd, Bool.false_and, if_neg Bool.false_ne_true]
      · rw [List.getD_eq_default, List.getD_eq_default]
        · rw [List.length_map]; omega
        · rw [List.length_map, lstm_fill_length]; omega
  · intro W sin2pi cos2pi sqrtQ forward fitF s df hpres
    have hpm : (EnhancedLSTMModel.prepare_training_data sin2pi cos2pi sqrtQ s df).1.model
        = s.model := rfl
    have hps : (EnhancedLSTMModel.prepare_training_data sin2pi cos2pi sqrtQ s df).1.scaler
        = some (fitScaler (0, 1) (EnhancedLSTMModel.featureTable sin2pi cos2pi sqrtQ df)) := rfl
    constructor
    · intro i hseq hi
      have hN : df.length ≠ 0 := by omega
      obtain ⟨sc, mc, hs0, hs, hm⟩ := fitScaler_col0
        (EnhancedLSTMModel.featureTable sin2pi cos2pi sqrtQ df)
        (by rw [enhanced_featureTable_length]; exact hN)
        (by
          rw [show EnhancedLSTMModel.featureTable sin2pi cos2pi sqrtQ df
              = (List.range df.length).map
                  (EnhancedLSTMModel.featureRow sin2pi cos2pi sqrtQ
                    (tempFilled (df.map Prod.snd)) (df.map Prod.fst)) from rfl,
            headD_range_map _ (Nat.pos_of_ne_zero hN)]
          simp [EnhancedLSTMModel.featureRow])
        (colAt_enhanced_featureTable_all_some sin2pi cos2pi sqrtQ df hpres)
      simp only [EnhancedLSTMModel.fill_gaps, List.map_map]
      rw [getD_range_map _ hi]
      simp only [Function.comp]
      by_cases hgap : (EnhancedLSTMModel.prepare_training_data sin2pi cos2pi sqrtQ
          s df).2.masks.getD (i - s.sequence_length) false = true
      · have hd : decide (s.sequence_length ≤ i) = true := by simp [hseq]
        simp only [hd, hgap, Bool.and_self, eq_self_iff_true, if_true]
        rw [if_pos hseq]
        have hplen : i - s.sequence_length
            < (EnhancedLSTMModel.prepare_training_data sin2pi cos2pi sqrtQ s df).2.X.length := by
          rw [enhanced_X_length]; omega
        cases hmod : s.model with
        | some w =>
          simp only [hpm, hps, hmod]
          rw [getD_map_of_lt _ hplen none []]
          exact inverseCol0_isSome hs0 hs hm _
        | none =>
          simp only [hpm, hps, hmod]
          rw [getD_map_of_lt _ hplen none []]
          exact inverseCol0_isSome hs0 hs hm _
      · rw [Bool.not_eq_true] at hgap
        simp only [hgap, Bool.and_false, if_neg Bool.false_ne_true]
        have hval := enhanced_masks_getD sin2pi cos2pi sqrtQ s df hseq hi
        rw [hgap] at hval
        cases hv : (df.map Prod.snd).getD i none with
        | none => rw [hv] at hval; exact Bool.noConfusion hval
        | some q => rfl
    · intro j hj
      by_cases hjn : j < df.length
      · simp only [EnhancedLSTMModel.fill_gaps, List.map_map]
        rw [getD_range_map _ hjn]
        have hd : decide (s.sequence_length ≤ j) = false := by
          simp only [decide_eq_false_iff_not]
          omega
        simp only [Function.comp, hd, Bool.false_and, if_neg Bool.false_ne_true]
      · rw [List.getD_eq_default, List.getD_eq_default]
        · rw [List.length_map]; omega
        · rw [List.length_map, enhanced_fill_length]; omega

/-- Witness for the amended C3: both fillers on the four-point series
with a gap at position 0, at the in-window position 2. -/
theorem C3_witness :
    (((LSTMGapFiller.fill_gaps (fun _ => 0) (fun _ => 0) (fun _ _ _ _ => fun _ => 0)
        sampleGapSeries 2).map FilledRow.filled_value).getD 2 none).isSome
    ∧ ((((EnhancedLSTMModel.fill_gaps (fun _ => 0) (fun _ => 0) (fun _ => 0)
        (fun _ _ => 0) (fun _ _ _ _ => ()) sampleFreshState2 sampleGapSeries).2).map
          EnhancedLSTMModel.EFilledRow.filled_value).getD 2 none).isSome :=
  ⟨(C3_dense_from_sequence_length.1 (fun _ => 0) (fun _ => 0) (fun _ _ _ _ => fun _ => 0)
      sampleGapSeries 2 ⟨some 1, by simp [sampleGapSeries], rfl⟩).1 2
      (by decide) (by decide),
   (C3_dense_from_sequence_length.2 Unit (fun _ => 0) (fun _ => 0) (fun _ => 0)
      (fun _ _ => 0) (fun _ _ _ _ => ()) sampleFreshState2 sampleGapSeries
      ⟨some 1, by simp [sampleGapSeries], rfl⟩).1 2 (by decide) (by decide)⟩

theorem classifyValue_some_ne_unknown (t : AnomalyDetector.Thresholds) (v : ℚ) :
    (AnomalyDetector.classifyValue t (some v)).1 ≠ .unknown := by
  simp only [AnomalyDetector.classifyValue]
  split_ifs <;> decide

/-- Claim C7: on any series whose present values are all identical, the
standard deviation is 0 (or undefined below two samples), every z-score
is therefore NaN, and every z-flag comes out false; the detector is a
total function (the source raises nothing: NumPy only emits a
suppressed warning for the 0/0), so no exception reaches the caller. -/
theorem C7_degenerate_all_z_flags_false (sqrtQ : ℚ → ℚ) (h0 : sqrtQ 0 = 0)
    (df : List F) (v : ℚ)
    (hall : ∀ x ∈ df, ∀ q : ℚ, x = some q → q = v)
    (z_threshold iqr_multiplier : ℚ) :
    ∀ b ∈ (AnomalyDetector.detect_statistical_anomalies sqrtQ df z_threshold
        iqr_multiplier).z_anomalies, b = false := by
  have hv : ∀ y ∈ dropna df, y = v := by
    intro y hy
    obtain ⟨x, hx, hxy⟩ := List.mem_filterMap.mp hy
    exact hall x hx y hxy
  have hstd : AnomalyDetector.seriesStd sqrtQ (dropna df) = none
      ∨ AnomalyDetector.seriesStd sqrtQ (dropna df) = some 0 := by
    cases hm : AnomalyDetector.seriesMean (dropna df) with
    | none => left; simp only [AnomalyDetector.seriesStd, hm]
    | some m =>
      by_cases h2 : (dropna df).length < 2
      · left
        simp only [AnomalyDetector.seriesStd, hm, if_pos h2]
      · right
        have hne : (dropna df).length ≠ 0 := by omega
        have hmv : m = v := by
          rw [AnomalyDetector.seriesMean, if_neg hne] at hm
          have hsum : (dropna df).sum = (dropna df).length • v :=
            List.sum_eq_card_nsmul (dropna df) v hv
          have : m = (dropna df).sum / ((dropna df).length : ℚ) :=
            (Option.some.inj hm).symm
          rw [this, hsum, nsmul_eq_mul]
          exact mul_div_cancel_left₀ v (Nat.cast_ne_zero.mpr hne)
        have hzero : ((dropna df).map (fun y => (y - m) ^ 2)).sum = 0 := by
          apply List.sum_eq_zero
          intro x hx
          obtain ⟨y, hy, rfl⟩ := List.mem_map.mp hx
          rw [hv y hy, hmv]
          ring
        simp only [AnomalyDetector.seriesStd, hm, if_neg h2, hzero, zero_div, h0]
  have hz : ∀ y : ℚ, AnomalyDetector.zFlagOf z_threshold
      (AnomalyDetector.zScoreOf (AnomalyDetector.seriesMean (dropna df))
        (AnomalyDetector.seriesStd sqrtQ (dropna df)) y) = false := by
    intro y
    rcases hstd with h | h <;>
      cases hm : AnomalyDetector.seriesMean (dropna df) <;>
        simp [AnomalyDetector.zScoreOf, AnomalyDetector.zFlagOf, h, hm]
  intro b hb
  simp only [AnomalyDetector.detect_statistical_anomalies, List.map_map] at hb
  obtain ⟨y, hy, rfl⟩ := List.mem_map.mp hb
  exact hz y

/-- Witness for C7: the all-identical two-point series `[5, 5]`, with
the zero-respecting square root `fun _ => 0`, flags nothing. -/
theorem C7_witness :
    ((AnomalyDetector.detect_statistical_anomalies (fun _ => 0)
        [some 5, some 5] 3 (3/2)).z_anomalies).getD 0 true = false := by
  apply C7_degenerate_all_z_flags_false (fun _ => 0) rfl [some 5, some 5] 5
    (by
      intro x hx q hq
      have hx5 : x = some 5 := by
        rcases List.mem_cons.mp hx with h | h
        · exact h
        · rcases List.mem_cons.mp h with h' | h'
          · exact h'
          · cases h'
      rw [hx5] at hq
      exact (Option.some.inj hq.symm))
    3 (3/2)
  apply getD_mem
  decide

theorem domain_health_levels_getD (df : List F) (pt : String) {i : ℕ}
    (hi : i < (dropna df).length) :
    (AnomalyDetector.detect_domain_anomalies df pt).health_levels.getD i .unknown
      = (AnomalyDetector.classifyValue (AnomalyDetector.thresholdsFor pt)
          (some ((dropna df).getD i 0))).1 := by
  simp only [AnomalyDetector.detect_domain_anomalies]
  have hplen : i < ((dropna df).map (fun v =>
      AnomalyDetector.classifyValue (AnomalyDetector.thresholdsFor pt) (some v))).length := by
    simpa using hi
  rw [getD_map_of_lt Prod.fst hplen AnomalyDetector.HealthLevel.unknown
    (AnomalyDetector.classifyValue (AnomalyDetector.thresholdsFor pt) none)]
  rw [getD_map_of_lt _ hi _ (0 : ℚ)]

/-- Claim C10: `detect_all` drops every row with a missing value before
running any detector — the detailed output has exactly one entry per
present value, those entries carry exactly the present values in order,
and the health level `unknown` (reachable only for a NaN value, which
the dropna removes) never occurs in the output. -/
theorem C10_one_entry_per_present_value (sqrtQ : ℚ → ℚ) (skl : Bool)
    (mld : List ℚ → Option (List ℚ × List Bool)) (data : List F) (pt : String) :
    (AnomalyDetector.detect_all_core sqrtQ skl mld data pt).detailed.length
      = (dropna data).length
    ∧ ((AnomalyDetector.detect_all_core sqrtQ skl mld data pt).detailed.map
        AnomalyDetector.DetailedPoint.value) = dropna data
    ∧ ((AnomalyDetector.detect_all_core sqrtQ skl mld data pt).detailed.all
        (fun p => !decide (p.health_level = AnomalyDetector.HealthLevel.unknown)))
      = true := by
  refine ⟨?_, ?_, ?_⟩
  · simp [AnomalyDetector.detect_all_core]
  · simp only [AnomalyDetector.detect_all_core, List.map_map]
    exact map_getD_range (dropna data) 0
  · rw [List.all_eq_true]
    intro x hx
    simp only [AnomalyDetector.detect_all_core] at hx
    obtain ⟨i, hi, rfl⟩ := mem_range_map hx
    have hlev := domain_health_levels_getD ((dropna data).map some) pt
      (i := i) (by rw [dropna_map_some]; exact hi)
    simp only [Bool.not_eq_eq_eq_not, Bool.not_true, decide_eq_false_iff_not]
    show (AnomalyDetector.detect_domain_anomalies ((dropna data).map some)
        pt).health_levels.getD i .unknown ≠ .unknown
    rw [hlev]
    exact classifyValue_some_ne_unknown _ _

theorem stat_z_threshold (sqrtQ : ℚ → ℚ) (df : List F) (zt im : ℚ) :
    (AnomalyDetector.detect_statistical_anomalies sqrtQ df zt im).z_threshold = zt :=
  rfl

theorem stat_z_anomalies_getD (sqrtQ : ℚ → ℚ) (df : List F) (zt im : ℚ) {i : ℕ}
    (hi : i < (dropna df).length) :
    (AnomalyDetector.detect_statistical_anomalies sqrtQ df zt im).z_anomalies.getD i false
      = AnomalyDetector.zFlagOf zt
        ((AnomalyDetector.detect_statistical_anomalies sqrtQ df zt im).z_scores.getD
          i none) := by
  simp only [AnomalyDetector.detect_statistical_anomalies]
  have hplen : i < ((dropna df).map
      (AnomalyDetector.zScoreOf (AnomalyDetector.seriesMean (dropna df))
        (AnomalyDetector.seriesStd sqrtQ (dropna df)))).length := by
    simpa using hi
  rw [getD_map_of_lt (AnomalyDetector.zFlagOf zt) hplen false none]

theorem score_nonneg (b1 b2 b3 : Bool) (mo : Option Bool) :
    0 ≤ (if b1 then (3:ℚ)/10 else 0) + (if b2 then (3:ℚ)/10 else 0)
      + (if b3 then (1:ℚ)/5 else 0) + AnomalyDetector.mlTerm mo := by
  rcases mo with _ | fl
  · cases b1 <;> cases b2 <;> cases b3 <;> norm_num [AnomalyDetector.mlTerm]
  · cases b1 <;> cases b2 <;> cases b3 <;> cases fl <;>
      norm_num [AnomalyDetector.mlTerm]

theorem score_le_no_ml (b1 b2 b3 : Bool) :
    (if b1 then (3:ℚ)/10 else 0) + (if b2 then (3:ℚ)/10 else 0)
      + (if b3 then (1:ℚ)/5 else 0) + AnomalyDetector.mlTerm none ≤ 4/5 := by
  cases b1 <;> cases b2 <;> cases b3 <;> norm_num [AnomalyDetector.mlTerm]

theorem score_le_with_ml (b1 b2 b3 fl : Bool) :
    (if b1 then (3:ℚ)/10 else 0) + (if b2 then (3:ℚ)/10 else 0)
      + (if b3 then (1:ℚ)/5 else 0) + AnomalyDetector.mlTerm (some fl) ≤ 1 := by
  cases b1 <;> cases b2 <;> cases b3 <;> cases fl <;>
    norm_num [AnomalyDetector.mlTerm]

/-- Claim C1: every detailed entry of the fused anomaly result has
`combined_score = 0.3·[z-flag] + 0.3·[IQR-flag] + 0.2·[hazardous] +
0.2·[ML-flag]`, with the ML term omitted (not renormalized) exactly
when the ML detector did not run (`is_ml_anomaly = none`); the score is
then within `[0, 0.8]`, otherwise within `[0, 1]`; and
`is_anomaly ↔ combined_score > 0.5`. -/
theorem C1_fusion_formula (sqrtQ : ℚ → ℚ) (skl : Bool)
    (mld : List ℚ → Option (List ℚ × List Bool)) (data : List F) (pt : String) :
    ((AnomalyDetector.detect_all_core sqrtQ skl mld data pt).detailed.all
      (fun p =>
        decide (p.combined_score =
          (if p.is_z_anomaly then (3:ℚ)/10 else 0)
          + (if p.is_iqr_anomaly then (3:ℚ)/10 else 0)
          + (if p.is_hazardous then (1:ℚ)/5 else 0)
          + AnomalyDetector.mlTerm p.is_ml_anomaly)
        && decide (0 ≤ p.combined_score)
        && (if p.is_ml_anomaly = none then decide (p.combined_score ≤ 4/5)
            else decide (p.combined_score ≤ 1))
        && decide (p.is_anomaly = decide ((1:ℚ)/2 < p.combined_score)))) = true := by
  rw [List.all_eq_true]
  intro x hx
  simp only [AnomalyDetector.detect_all_core] at hx
  obtain ⟨i, hi, rfl⟩ := mem_range_map hx
  simp only []
  rw [getD_range_map _ hi]
  rw [stat_z_threshold]
  rw [stat_z_anomalies_getD sqrtQ ((dropna data).map some) 3 (3/2)
    (by rw [dropna_map_some]; exact hi)]
  cases hskl : skl && decide (50 < (dropna data).length) with
  | false =>
    simp only [hskl, if_neg Bool.false_ne_true, Option.map_none']
    simp only [Bool.and_eq_true, decide_eq_true_eq]
    refine ⟨⟨⟨trivial, score_nonneg _ _ _ none⟩, ?_⟩, trivial⟩
    simp only [if_true]
    exact decide_eq_true (score_le_no_ml _ _ _)
  | true =>
    simp only [hskl, eq_self_iff_true, if_true]
    cases hml : mld (dropna data) with
    | none =>
      simp only [hml, Option.map_none']
      simp only [Bool.and_eq_true, decide_eq_true_eq]
      refine ⟨⟨⟨trivial, score_nonneg _ _ _ none⟩, ?_⟩, trivial⟩
      simp only [if_true]
      exact decide_eq_true (score_le_no_ml _ _ _)
    | some pr =>
      simp only [hml, Option.map_some']
      simp only [Bool.and_eq_true, decide_eq_true_eq]
      refine ⟨⟨⟨trivial, score_nonneg _ _ _ (some (pr.2.getD i false))⟩, ?_⟩, trivial⟩
      rw [if_neg (Option.some_ne_none _)]
      exact decide_eq_true (score_le_with_ml _ _ _ _)
